import Mathlib

/-!
# A shallow embedding of `src/rosapi/__init__.py` (zenoio/rosapi)

The source is a RouterOS API client.  This file embeds, straight from the
source, the pieces the verified claims are about:

* the variable-width length codec (`RosApiLengthUtils`),
* the word/sentence framer (`RosAPI.write_sentence` / `read_sentence`),
* the talk engine (`RosAPI.talk`),
* the resource query builder (`BaseRouterboardResource` /
  `RouterboardResource`),
* the reconnect retry policy (`RouterboardAPI.reconnect`).

Modelling conventions:

* A byte stream is a `List Nat` of the bytes available to `recv`; sent data
  is collected as a `List Nat`.  Python integers are unbounded, so `Nat`
  is the faithful integer type.
* Python byte strings (`bytes`) are `List Nat`; Python text strings (`str`)
  are `List Char`.
* Code that raises exceptions returns `Except RosErr _`; the stream state
  is threaded explicitly and returned also on the error path (the Python
  socket object survives a raised exception).
* The embedding follows the Python 3 semantics of the source (the module's
  `PY2` branches only swap equivalent implementations of
  `from_bytes`/`to_bytes`; where Python 2 would behave differently this is
  noted at the definition).
-/

namespace RosApi

/-- Python text strings are modelled as their list of characters. -/
def pstr (s : String) : List Char := s.data

/-- A socket as seen by the client: the bytes still available to `recv`,
and whether `socket.close()` has been called on it. -/
structure Sock where
  data : List Nat
  closed : Bool
deriving DecidableEq, Repr

/-- The value carried by a raised exception (`RosAPIError.__init__` stores
an arbitrary `value`: an attribute dict, a message string, or — for the
undecodable length byte of `read_length` — the formatted message
`'Unknown value: %x' % i`, modelled by remembering the byte itself). -/
inductive ErrVal where
  | dict (d : List (List Nat × List Nat))
  | str (s : List Char)
  | unknownLengthByte (b : Nat)
deriving DecidableEq, Repr

/-- The exception classes raised by the source: `RosAPIError` (application
error), its subclasses `RosAPIConnectionError` and `RosAPIFatalError`, and
the Python builtins `ValueError` and `TypeError`. -/
inductive RosErr where
  | apiError (v : ErrVal)
  | connectionError (v : ErrVal)
  | fatalError (v : ErrVal)
  | valueError
  | typeError
deriving DecidableEq, Repr

instance {ε α : Type} [DecidableEq ε] [DecidableEq α] :
    DecidableEq (Except ε α) := fun a b =>
  match a, b with
  | .ok x, .ok y =>
    if h : x = y then .isTrue (by rw [h]) else .isFalse (by simp [h])
  | .error x, .error y =>
    if h : x = y then .isTrue (by rw [h]) else .isFalse (by simp [h])
  | .ok _, .error _ => .isFalse (by simp)
  | .error _, .ok _ => .isFalse (by simp)

/-- `RosAPI.read_bytes(length)`: loop on `recv` until `length` bytes have
been collected; an empty `recv` result (the peer closed, or no more data
will arrive) raises `RosAPIConnectionError('Connection closed by remote
end.')`. -/
def read_bytes (length : Nat) (st : Sock) : Except RosErr (List Nat) × Sock :=
  if st.data.length < length then
    (.error (.connectionError (.str (pstr "Connection closed by remote end."))),
     ⟨[], st.closed⟩)
  else
    (.ok (st.data.take length), ⟨st.data.drop length, st.closed⟩)

/-- `RosApiLengthUtils.from_bytes(data)`: big-endian interpretation of a
byte string.  This is the Python 2 branch's loop (`value <<= 8;
value += byte_value`); the Python 3 branch `int.from_bytes(data, 'big')`
computes the same number. -/
def from_bytes (data : List Nat) : Nat :=
  data.foldl (fun value byte_value => (value <<< 8) + byte_value) 0

/-- `RosApiLengthUtils.to_bytes(i, size)`: the `size`-byte big-endian
encoding of `i`.  This is the Python 2 branch's loop (emit `i & 0xff`,
shift `i` right by 8, `size` times, then reverse); the Python 3 branch
`i.to_bytes(size, 'big')` agrees for `i < 256 ^ size`, which holds at
every call site reachable with a length below `2 ^ 32`. -/
def to_bytes (i : Nat) : Nat → List Nat
  | 0 => []
  | size + 1 => to_bytes (i >>> 8) size ++ [i &&& 0xFF]

/-- `RosApiLengthUtils.length_to_bytes` — the §4.1 encoder. -/
def length_to_bytes (length : Nat) : List Nat :=
  if length < 0x80 then to_bytes length 1
  else if length < 0x4000 then to_bytes (length ||| 0x8000) 2
  else if length < 0x200000 then to_bytes (length ||| 0xC00000) 3
  else if length < 0x10000000 then to_bytes (length ||| 0xE0000000) 4
  else to_bytes 0xF0 1 ++ to_bytes length 4

/-- `RosApiLengthUtils._unpack(times, i)`: prepend `i` as one byte to the
next `times` bytes of the stream and read the result big-endian. -/
def unpack (times i : Nat) (st : Sock) : Except RosErr Nat × Sock :=
  match read_bytes times st with
  | (.error e, st') => (.error e, st')
  | (.ok bs, st') => (.ok (from_bytes (to_bytes i 1 ++ bs)), st')

/-- `RosApiLengthUtils.read_length` — the §4.1 decoder.  Python's
`i & ~0xC0` on a non-negative `i` clears bits 6–7, i.e. equals
`i - (i &&& 0xC0)`; likewise `i & ~0xE0` clears bits 5–7 and `i & ~0xF0`
clears bits 4–7.  Note that the marker-byte case (`i & 0xF8 == 0xF0`)
reads `read_bytes(1)` — a single byte — in the source. -/
def read_length (st : Sock) : Except RosErr Nat × Sock :=
  match read_bytes 1 st with
  | (.error e, st') => (.error e, st')
  | (.ok b, st1) =>
    let i := from_bytes b
    if i &&& 0x80 = 0x00 then (.ok i, st1)
    else if i &&& 0xC0 = 0x80 then unpack 1 (i - (i &&& 0xC0)) st1
    else if i &&& 0xE0 = 0xC0 then unpack 2 (i - (i &&& 0xE0)) st1
    else if i &&& 0xF0 = 0xE0 then unpack 3 (i - (i &&& 0xF0)) st1
    else if i &&& 0xF8 = 0xF0 then
      match read_bytes 1 st1 with
      | (.error e, st2) => (.error e, st2)
      | (.ok b2, st2) => (.ok (from_bytes b2), st2)
    else (.error (.fatalError (.unknownLengthByte i)), st1)

end RosApi

namespace RosApi

/-! ### Arithmetic forms of the codec primitives -/

lemma shl8 (v : Nat) : v <<< 8 = v * 256 := by
  rw [Nat.shiftLeft_eq]

lemma shr8 (v : Nat) : v >>> 8 = v / 256 := by
  rw [Nat.shiftRight_eq_div_pow]

lemma and_255 (i : Nat) : i &&& 0xFF = i % 256 := by
  have := Nat.and_pow_two_sub_one_eq_mod i 8
  norm_num at this
  exact this

lemma to_bytes_one (i : Nat) : to_bytes i 1 = [i % 256] := by
  simp [to_bytes, and_255]

lemma to_bytes_two (i : Nat) : to_bytes i 2 = [i / 256 % 256, i % 256] := by
  simp [to_bytes, and_255, shr8]

lemma to_bytes_three (i : Nat) :
    to_bytes i 3 = [i / 65536 % 256, i / 256 % 256, i % 256] := by
  simp [to_bytes, and_255, shr8, Nat.div_div_eq_div_mul]

lemma to_bytes_four (i : Nat) :
    to_bytes i 4 = [i / 16777216 % 256, i / 65536 % 256, i / 256 % 256, i % 256] := by
  simp [to_bytes, and_255, shr8, Nat.div_div_eq_div_mul]

lemma from_bytes_nil : from_bytes [] = 0 := rfl

lemma from_bytes_cons (b : Nat) (bs : List Nat) :
    from_bytes (b :: bs) = bs.foldl (fun v x => (v <<< 8) + x) b := by
  simp [from_bytes, Nat.zero_shiftLeft]

/-- A number strictly below a power of two, `or`-ed with a multiple of that
power, is their sum (`length |= 0x8000` and friends in the encoder). -/
lemma lor_high {i b : Nat} (a : Nat) (h : b < 2 ^ i) :
    b ||| 2 ^ i * a = 2 ^ i * a + b := by
  rw [Nat.lor_comm]
  exact (Nat.mul_add_lt_is_or h a).symm

lemma mask_case1 : ∀ x < 0x80, x &&& 0x80 = 0 := by decide

lemma mask_case2 : ∀ x < 0x40,
    (x + 0x80) &&& 0x80 = 0x80 ∧ (x + 0x80) &&& 0xC0 = 0x80 := by decide

lemma mask_case3 : ∀ x < 0x20,
    (x + 0xC0) &&& 0x80 = 0x80 ∧ (x + 0xC0) &&& 0xC0 = 0xC0 ∧
    (x + 0xC0) &&& 0xE0 = 0xC0 := by decide

lemma mask_case4 : ∀ x < 0x10,
    (x + 0xE0) &&& 0x80 = 0x80 ∧ (x + 0xE0) &&& 0xC0 = 0xC0 ∧
    (x + 0xE0) &&& 0xE0 = 0xE0 ∧ (x + 0xE0) &&& 0xF0 = 0xE0 := by decide

/-- Decoding inverts encoding for every length the encoder can frame
correctly, i.e. every `n < 0x10000000`, leaving the rest of the stream and
the closed flag untouched. -/
theorem read_length_encode (n : Nat) (h : n < 0x10000000) (rest : List Nat)
    (c : Bool) :
    read_length ⟨length_to_bytes n ++ rest, c⟩ = (.ok n, ⟨rest, c⟩) := by
  unfold length_to_bytes
  split_ifs with h1 h2 h3
  · -- 1-byte case
    rw [to_bytes_one, Nat.mod_eq_of_lt (by omega)]
    have hm := mask_case1 n h1
    simp [read_length, read_bytes, from_bytes_cons, hm]
  · -- 2-byte case
    have e1 : n ||| 0x8000 = 0x8000 + n := by
      have := lor_high (i := 15) 1 (show n < 2 ^ 15 by omega)
      norm_num at this
      exact this
    rw [e1, to_bytes_two,
      show (0x8000 + n) / 256 % 256 = n / 256 + 0x80 by omega,
      show (0x8000 + n) % 256 = n % 256 by omega]
    obtain ⟨m1, m2⟩ := mask_case2 (n / 256) (by omega)
    simp only [List.cons_append, List.nil_append]
    simp [read_length, read_bytes, from_bytes_cons, unpack, to_bytes_one,
      m1, m2, shl8]
    omega
  · -- 3-byte case
    have e1 : n ||| 0xC00000 = 0xC00000 + n := by
      have := lor_high (i := 22) 3 (show n < 2 ^ 22 by omega)
      norm_num at this
      exact this
    rw [e1, to_bytes_three,
      show (0xC00000 + n) / 65536 % 256 = n / 65536 + 0xC0 by omega,
      show (0xC00000 + n) / 256 % 256 = n / 256 % 256 by omega,
      show (0xC00000 + n) % 256 = n % 256 by omega]
    obtain ⟨m1, m2, m3⟩ := mask_case3 (n / 65536) (by omega)
    simp only [List.cons_append, List.nil_append]
    simp [read_length, read_bytes, from_bytes_cons, unpack, to_bytes_one,
      m1, m2, m3, shl8]
    rw [if_neg (by omega)]
    simp
    omega
  · -- 4-byte case
    have e1 : n ||| 0xE0000000 = 0xE0000000 + n := by
      have := lor_high (i := 29) 7 (show n < 2 ^ 29 by omega)
      norm_num at this
      exact this
    have h4 : n < 0x10000000 := h
    rw [e1, to_bytes_four,
      show (0xE0000000 + n) / 16777216 % 256 = n / 16777216 + 0xE0 by omega,
      show (0xE0000000 + n) / 65536 % 256 = n / 65536 % 256 by omega,
      show (0xE0000000 + n) / 256 % 256 = n / 256 % 256 by omega,
      show (0xE0000000 + n) % 256 = n % 256 by omega]
    obtain ⟨m1, m2, m3, m4⟩ := mask_case4 (n / 16777216) (by omega)
    simp only [List.cons_append, List.nil_append]
    simp [read_length, read_bytes, from_bytes_cons, unpack, to_bytes_one,
      m1, m2, m3, m4, shl8]
    rw [if_neg (by omega)]
    simp
    omega

/-! ### The word/sentence framer -/

/-- `RosAPI.write_word(word)`: the bytes put on the wire — the §4.1 length
of the word, then the word itself.  (`write_bytes` only loops on
partial sends; on a healthy socket the bytes go out unchanged.) -/
def write_word_bytes (word : List Nat) : List Nat :=
  length_to_bytes word.length ++ word

/-- `RosAPI.write_sentence(words)`: write each word, then a zero-length
terminator word, counting the non-terminator words written; the result is
that count together with the bytes sent. -/
def write_sentence (words : List (List Nat)) : Nat × List Nat :=
  let w := words.foldl
    (fun acc word => (acc.1 + 1, acc.2 ++ write_word_bytes word)) (0, [])
  (w.1, w.2 ++ write_word_bytes [])

/-- `RosAPI.read_word`: decode a length, then read exactly that many
bytes. -/
def read_word (st : Sock) : Except RosErr (List Nat) × Sock :=
  match read_length st with
  | (.error e, st') => (.error e, st')
  | (.ok n, st1) => read_bytes n st1

lemma read_bytes_ok_len {k : Nat} {st : Sock} {bs : List Nat} {st' : Sock}
    (h : read_bytes k st = (.ok bs, st')) :
    st'.data.length + k = st.data.length ∧ bs.length = k ∧
      st'.closed = st.closed := by
  unfold read_bytes at h
  split_ifs at h with hc
  · simp at h
  · obtain ⟨h1, h2⟩ := Prod.mk.injEq .. ▸ h
    simp only [Except.ok.injEq] at h1
    subst h1
    subst h2
    simp
    omega

lemma unpack_ok_len {times i : Nat} {st : Sock} {n : Nat} {st' : Sock}
    (h : unpack times i st = (.ok n, st')) :
    st'.data.length ≤ st.data.length := by
  unfold unpack at h
  rcases hb : read_bytes times st with ⟨r, st1⟩
  rw [hb] at h
  cases r with
  | error e => simp at h
  | ok bs =>
    simp only [Prod.mk.injEq] at h
    obtain ⟨h1, h2⟩ := h
    subst h2
    have := read_bytes_ok_len hb
    omega

lemma read_length_ok_len {st : Sock} {n : Nat} {st' : Sock}
    (h : read_length st = (.ok n, st')) :
    st'.data.length < st.data.length := by
  unfold read_length at h
  rcases hb : read_bytes 1 st with ⟨r, st1⟩
  rw [hb] at h
  cases r with
  | error e => simp at h
  | ok b =>
    have hb1 := read_bytes_ok_len hb
    simp only at h
    split_ifs at h with h1 h2 h3 h4 h5
    · simp only [Prod.mk.injEq] at h
      obtain ⟨_, h⟩ := h
      subst h
      omega
    · have := unpack_ok_len h; omega
    · have := unpack_ok_len h; omega
    · have := unpack_ok_len h; omega
    · rcases hb2 : read_bytes 1 st1 with ⟨r2, st2⟩
      rw [hb2] at h
      cases r2 with
      | error e => simp at h
      | ok b2 =>
        simp only [Prod.mk.injEq] at h
        obtain ⟨_, h⟩ := h
        subst h
        have := read_bytes_ok_len hb2
        omega
    · simp at h

lemma read_word_ok_len {st : Sock} {w : List Nat} {st' : Sock}
    (h : read_word st = (.ok w, st')) :
    st'.data.length < st.data.length := by
  unfold read_word at h
  rcases hb : read_length st with ⟨r, st1⟩
  rw [hb] at h
  cases r with
  | error e => simp at h
  | ok n =>
    have h1 := read_length_ok_len hb
    have h2 := read_bytes_ok_len h
    omega

/-- `RosAPI.read_sentence`: read words until a zero-length word is read;
return the non-terminator words in order.  The recursion terminates
because every word read consumes at least one byte of the stream. -/
def read_sentence (st : Sock) : Except RosErr (List (List Nat)) × Sock :=
  match h : read_word st with
  | (.error e, st') => (.error e, st')
  | (.ok word, st') =>
    if word.length = 0 then (.ok [], st')
    else
      match read_sentence st' with
      | (.error e, st'') => (.error e, st'')
      | (.ok sentence, st'') => (.ok (word :: sentence), st'')
termination_by st.data.length
decreasing_by exact read_word_ok_len h

lemma read_sentence_step (st : Sock) :
    read_sentence st =
      match read_word st with
      | (.error e, st') => (.error e, st')
      | (.ok word, st') =>
        if word.length = 0 then (.ok [], st')
        else
          match read_sentence st' with
          | (.error e, st'') => (.error e, st'')
          | (.ok sentence, st'') => (.ok (word :: sentence), st'') := by
  rw [read_sentence.eq_def]
  rcases hb : read_word st with ⟨r, st'⟩
  cases r <;> rfl

lemma read_word_encode (w : List Nat) (h : w.length < 0x10000000)
    (rest : List Nat) (c : Bool) :
    read_word ⟨write_word_bytes w ++ rest, c⟩ = (.ok w, ⟨rest, c⟩) := by
  unfold read_word write_word_bytes
  rw [List.append_assoc, read_length_encode _ h]
  show read_bytes w.length ⟨w ++ rest, c⟩ = (.ok w, ⟨rest, c⟩)
  unfold read_bytes
  rw [if_neg (by simp)]
  simp [List.take_left, List.drop_left]

lemma write_fold (ws : List (List Nat)) (n : Nat) (bs : List Nat) :
    ws.foldl (fun acc word => (acc.1 + 1, acc.2 ++ write_word_bytes word)) (n, bs)
      = (n + ws.length, bs ++ (ws.map write_word_bytes).flatten) := by
  induction ws generalizing n bs with
  | nil => simp
  | cons w t ih => simp [ih, List.append_assoc]; omega

lemma write_sentence_eq (ws : List (List Nat)) :
    write_sentence ws = (ws.length, (ws.map write_word_bytes).flatten ++ [0]) := by
  unfold write_sentence
  rw [write_fold]
  simp
  rfl

/-- C1.  Length codec at the values named by the claim: for the eight
values below `0x10000000` decoding the encoding gives the value back and
the encoded width matches the §4.1 table (1, 1, 2, 2, 3, 3, 4, 4 bytes);
but for `0x10000000` and `0xFFFFFFFF` — the marker-byte case — the decoder
reads only ONE byte after the `0xF0` marker instead of the four the claim
(and the encoder) require, so the round trip fails: the encoder emits
`F0 10 00 00 00` and the decoder returns `0x10`, leaving three bytes
unconsumed. -/
theorem length_codec_claimed_values :
    (read_length ⟨length_to_bytes 0x00, false⟩ = (.ok 0x00, ⟨[], false⟩)
      ∧ (length_to_bytes 0x00).length = 1)
    ∧ (read_length ⟨length_to_bytes 0x7F, false⟩ = (.ok 0x7F, ⟨[], false⟩)
      ∧ (length_to_bytes 0x7F).length = 1)
    ∧ (read_length ⟨length_to_bytes 0x80, false⟩ = (.ok 0x80, ⟨[], false⟩)
      ∧ (length_to_bytes 0x80).length = 2)
    ∧ (read_length ⟨length_to_bytes 0x3FFF, false⟩ = (.ok 0x3FFF, ⟨[], false⟩)
      ∧ (length_to_bytes 0x3FFF).length = 2)
    ∧ (read_length ⟨length_to_bytes 0x4000, false⟩ = (.ok 0x4000, ⟨[], false⟩)
      ∧ (length_to_bytes 0x4000).length = 3)
    ∧ (read_length ⟨length_to_bytes 0x1FFFFF, false⟩ = (.ok 0x1FFFFF, ⟨[], false⟩)
      ∧ (length_to_bytes 0x1FFFFF).length = 3)
    ∧ (read_length ⟨length_to_bytes 0x200000, false⟩ = (.ok 0x200000, ⟨[], false⟩)
      ∧ (length_to_bytes 0x200000).length = 4)
    ∧ (read_length ⟨length_to_bytes 0xFFFFFFF, false⟩ = (.ok 0xFFFFFFF, ⟨[], false⟩)
      ∧ (length_to_bytes 0xFFFFFFF).length = 4)
    ∧ (length_to_bytes 0x10000000 = [0xF0, 0x10, 0x00, 0x00, 0x00]
      ∧ read_length ⟨length_to_bytes 0x10000000, false⟩
          = (.ok 0x10, ⟨[0x00, 0x00, 0x00], false⟩))
    ∧ (read_length ⟨length_to_bytes 0xFFFFFFFF, false⟩).1 = .ok 0xFF := by
  decide

/-- C7 (counterexample).  At the undecodable first byte `0xF8` the decoder
does raise a fatal-class error (`RosAPIFatalError`), but it does NOT close
the stream: the `closed` flag of the socket is still `false` afterwards.
The only `socket.close()` call in the source sits in `talk`'s `!fatal`
reply branch; `read_length`'s framing-error branch merely raises.  This
refutes the claim's "closes the stream". -/
theorem framing_error_no_close_counterexample :
    (read_length ⟨[0xF8], false⟩).1
        = .error (.fatalError (.unknownLengthByte 0xF8))
      ∧ (read_length ⟨[0xF8], false⟩).2.closed = false := by
  decide

/-- C7 (amended).  When the first byte of a length matches none of the
five decode cases, `read_length` raises `RosAPIFatalError('Unknown value:
%x' % i)` — a fatal-class error — consuming only that byte and leaving
the stream open (the closed flag is unchanged; no close happens). -/
theorem framing_error_fatal (b : Nat) (rest : List Nat) (c : Bool)
    (h1 : ¬ b &&& 0x80 = 0x00) (h2 : ¬ b &&& 0xC0 = 0x80)
    (h3 : ¬ b &&& 0xE0 = 0xC0) (h4 : ¬ b &&& 0xF0 = 0xE0)
    (h5 : ¬ b &&& 0xF8 = 0xF0) :
    read_length ⟨b :: rest, c⟩
      = (.error (.fatalError (.unknownLengthByte b)), ⟨rest, c⟩) := by
  simp [read_length, read_bytes, from_bytes_cons, h1, h2, h3, h4, h5]

/-- C7 (witness for the amended theorem), at first byte `0xFF` on an open
socket with more data behind it. -/
theorem framing_error_fatal_witness :
    read_length ⟨0xFF :: [1, 2], false⟩
      = (.error (.fatalError (.unknownLengthByte 0xFF)), ⟨[1, 2], false⟩) :=
  framing_error_fatal 0xFF [1, 2] false (by decide) (by decide) (by decide)
    (by decide) (by decide)

/-- C8 (counterexample).  A sentence containing a zero-length word does
not round-trip: `write_sentence [b'']` writes the bytes `00 00`, and
`read_sentence` stops at the first zero-length word, returning the EMPTY
sentence with one byte still unread — not `[b'']` with the stream just
past the terminator. -/
theorem sentence_roundtrip_counterexample :
    read_sentence ⟨(write_sentence [[]]).2, false⟩
      ≠ (.ok [[]], ⟨[], false⟩) := by
  have h1 : (write_sentence [[]]).2 = [0, 0] := by decide
  rw [h1, read_sentence_step,
    show read_word ⟨[0, 0], false⟩ = (.ok [], ⟨[0], false⟩) by decide]
  decide

/-- C8 (amended).  For every sequence of NON-EMPTY words, each shorter
than `0x10000000` bytes (the two restrictions forced by the zero-length
terminator convention and by the marker-byte decoder defect of C1),
writing the sentence and reading it back from the same stream yields the
identical sequence, with the stream afterwards positioned exactly past
the zero-length terminator word; and `write_sentence` returns the count
of non-terminator words written. -/
theorem sentence_roundtrip (ws : List (List Nat))
    (h : ∀ w ∈ ws, w ≠ [] ∧ w.length < 0x10000000)
    (rest : List Nat) (c : Bool) :
    read_sentence ⟨(write_sentence ws).2 ++ rest, c⟩ = (.ok ws, ⟨rest, c⟩)
      ∧ (write_sentence ws).1 = ws.length := by
  have main : ∀ ws : List (List Nat),
      (∀ w ∈ ws, w ≠ [] ∧ w.length < 0x10000000) →
      ∀ rest : List Nat, ∀ c : Bool,
      read_sentence ⟨(write_sentence ws).2 ++ rest, c⟩
        = (.ok ws, ⟨rest, c⟩) := by
    intro ws
    induction ws with
    | nil =>
      intro _h rest c
      rw [write_sentence_eq]
      have hw := read_word_encode [] (by decide) rest c
      rw [show write_word_bytes [] = [0] from by decide] at hw
      rw [read_sentence_step]
      simp only [List.map_nil, List.flatten_nil, List.nil_append]
      rw [hw]
      rfl
    | cons w t ih =>
      intro h rest c
      obtain ⟨hne, hlt⟩ := h w (List.mem_cons_self w t)
      have ht : ∀ w' ∈ t, w' ≠ [] ∧ w'.length < 0x10000000 :=
        fun w' hw' => h w' (List.mem_cons_of_mem _ hw')
      rw [write_sentence_eq]
      simp only [List.map_cons, List.flatten_cons, List.append_assoc]
      rw [read_sentence_step]
      rw [read_word_encode w hlt
        ((List.map write_word_bytes t).flatten ++ ([0] ++ rest)) c]
      have hrec := ih ht rest c
      rw [write_sentence_eq] at hrec
      rw [show ((List.map write_word_bytes t).flatten ++ [0]) ++ rest
            = (List.map write_word_bytes t).flatten ++ ([0] ++ rest)
          from List.append_assoc _ _ _] at hrec
      simp only [hrec]
      rw [if_neg (by simpa using hne)]
  exact ⟨main ws h rest c, by rw [write_sentence_eq]⟩

/-- C8 (witness for the amended theorem): two non-empty words, three
trailing bytes on the stream. -/
theorem sentence_roundtrip_witness :
    read_sentence ⟨(write_sentence [[97, 98], [99]]).2 ++ [7, 8, 9], false⟩
        = (.ok [[97, 98], [99]], ⟨[7, 8, 9], false⟩)
      ∧ (write_sentence [[97, 98], [99]]).1 = 2 :=
  sentence_roundtrip [[97, 98], [99]] (by decide) [7, 8, 9] false

/-! ### The talk engine -/

/-- A protocol word as `talk` handles it: a Python byte string. -/
abbrev Word := List Nat

/-- A sentence as returned by `read_sentence`: the non-terminator words. -/
abbrev Sentence := List Word

/-- The bytes of an ASCII literal (the source's `b'...'` literals). -/
def bytes (s : String) : Word := s.data.map Char.toNat

/-- A Python `dict` with byte-string keys, as `talk` builds: an
insertion-ordered association list; assigning to an existing key
overwrites its value in place, a new key is appended. -/
abbrev Dict := List (Word × Word)

/-- `attrs[k] = v`. -/
def dictInsert (k v : Word) : Dict → Dict
  | [] => [(k, v)]
  | (k', v') :: t =>
    if k' = k then (k', v) :: t else (k', v') :: dictInsert k v t

/-- `attrs[k]`, as a total lookup. -/
def dictLookup (k : Word) (d : Dict) : Option Word :=
  (d.find? (fun kv => kv.1 == k)).map (·.2)

/-- One iteration of `talk`'s attribute loop on the word `line`:
`line.index(b'=', 1)` finds the first `=` at position ≥ 1, i.e. after the
leading sigil byte; the word then maps key `line[1:pos]` to value
`line[pos+1:]`.  When no such `=` exists, Python's `bytes.index` raises
`ValueError`; the source's `except IndexError:` handler (which would map
`line[1:]` to `b''`) can never catch it, so the `none` case below makes
`talk` fail with that `ValueError`. -/
def parse_word (line : Word) : Option (Word × Word) :=
  match (line.drop 1).findIdx? (fun b => b == 61) with
  | some j => some ((line.drop 1).take j, line.drop (j + 2))
  | none => none

/-- The `for line in input_sentence:` attribute loop of `talk`,
accumulating into the dict `attrs`. -/
def parse_attrs_from (attrs : Dict) : List Word → Except RosErr Dict
  | [] => .ok attrs
  | line :: rest =>
    match parse_word line with
    | some (k, v) => parse_attrs_from (dictInsert k v attrs) rest
    | none => .error .valueError

/-- The attribute dict `talk` builds from the words after the reply tag. -/
def parse_attrs (lines : List Word) : Except RosErr Dict :=
  parse_attrs_from [] lines

/-- One non-empty sentence parsed as `talk` does: `pop(0)` takes the
reply tag, the remaining words build the attribute dict.  (`talk` skips
empty sentences before parsing, so the `[]` case is never consulted; it
is mapped to an error for totality.) -/
def parse_sentence : Sentence → Except RosErr (Word × Dict)
  | [] => .error .valueError
  | reply :: lines => (parse_attrs lines).map (fun attrs => (reply, attrs))

/-- A whole reply stream parsed the way `talk`'s read loop consumes it:
empty sentences are skipped, the others are parsed in order.  Used to
state hypotheses about reply streams. -/
def parse_replies : List Sentence → Except RosErr (List (Word × Dict))
  | [] => .ok []
  | s :: rest =>
    if s.isEmpty then parse_replies rest
    else do
      let r ← parse_sentence s
      let rs ← parse_replies rest
      .ok (r :: rs)

instance : DecidableEq (Word × Dict) := instDecidableEqProd

instance : DecidableEq (List (Word × Dict)) := instDecidableEqList

instance : DecidableEq (Option (List (Word × Dict))) := Option.instDecidableEq

/-- Everything observable about one `talk` call: the value returned or
the exception raised (`.ok none` models Python's bare `return`), the
bytes written to the socket, whether `socket.close()` was called, and the
reply sentences left unconsumed. -/
structure TalkOut where
  result : Except RosErr (Option (List (Word × Dict)))
  written : List Nat
  closed : Bool
  remaining : List Sentence
deriving DecidableEq, Repr

/-- The read loop of `RosAPI.talk`: read a sentence from `input`, skip it
if empty, otherwise `pop(0)` the reply tag, parse the attribute words,
append `(reply, attrs)` to `output`, and on `!done` classify by
`output[0]`, the FIRST accumulated reply (`!trap` raises `RosAPIError`
with its attrs; `!fatal` closes the socket then raises
`RosAPIFatalError`; anything else returns the whole list).  An exhausted
`input` models a peer that sends nothing more, where `read_sentence`
raises `RosAPIConnectionError` inside `read_bytes`. -/
def talkGo (written : List Nat) :
    List Sentence → List (Word × Dict) → TalkOut
  | [], _acc =>
    ⟨.error (.connectionError (.str (pstr "Connection closed by remote end."))),
     written, false, []⟩
  | s :: rest, acc =>
    match s with
    | [] => talkGo written rest acc
    | reply :: lines =>
      match parse_attrs lines with
      | .error e => ⟨.error e, written, false, rest⟩
      | .ok attrs =>
        let output := acc ++ [(reply, attrs)]
        if reply = bytes "!done" then
          let first := match acc with
            | [] => (reply, attrs)
            | f :: _ => f
          if first.1 = bytes "!trap" then
            ⟨.error (.apiError (.dict first.2)), written, false, rest⟩
          else if first.1 = bytes "!fatal" then
            ⟨.error (.fatalError (.dict first.2)), written, true, rest⟩
          else ⟨.ok (some output), written, false, rest⟩
        else talkGo written rest output

/-- `RosAPI.talk(words)`: write the request sentence (always, even when
`words` is empty — the terminator word still goes out); if zero words
were written, return `None` at once; otherwise run the read loop. -/
def talk (words : List Word) (input : List Sentence) : TalkOut :=
  if (write_sentence words).1 = 0 then
    ⟨.ok none, (write_sentence words).2, false, input⟩
  else talkGo (write_sentence words).2 input []

/-- C9 (counterexample).  `talk` with empty `words` is not a pure no-op
on the stream: `write_sentence` is called before the zero test and writes
the empty sentence's zero-length terminator word — one `0x00` byte goes
out on the socket. -/
theorem talk_empty_counterexample : (talk [] []).written ≠ [] := by decide

/-- C9 (amended).  With empty `words`, `talk` writes exactly the one-byte
zero-length terminator of the empty sentence, reads nothing from the
reply stream (it is returned untouched), closes nothing, raises nothing,
and returns immediately with no result (Python's bare `return`). -/
theorem talk_empty_words (input : List Sentence) :
    talk [] input = ⟨.ok none, [0], false, input⟩ := rfl

/-- C9 (witness for the amended theorem): a pending reply sentence stays
unread when `talk` is called with no words. -/
theorem talk_empty_words_witness :
    talk [] [[bytes "!re"]] = ⟨.ok none, [0], false, [[bytes "!re"]]⟩ :=
  talk_empty_words [[bytes "!re"]]

/-- C5.  Attribute-word parsing in `talk`: a word with a second `=` after
the leading sigil byte is split at the first such `=` into key and value
(checked on `b'=a=b'` and on `b'=a=b=c'`, whose value keeps the later
`=`); but a word with NO second `=` does not map its key to an empty
value — `bytes.index` raises `ValueError`, which the source's
`except IndexError:` clause cannot catch, so `talk` fails.  Shown on the
attribute word `b'=flag'` both at the parsing loop and through a full
`talk` call. -/
theorem attr_word_missing_eq :
    parse_attrs [bytes "=a=b"] = .ok [(bytes "a", bytes "b")]
    ∧ parse_attrs [bytes "=a=b=c"] = .ok [(bytes "a", bytes "b=c")]
    ∧ parse_attrs [bytes "=flag"] = .error .valueError
    ∧ (talk [bytes "/cmd"]
        [[bytes "!re", bytes "=flag"], [bytes "!done"]]).result
      = .error .valueError := by
  decide

/-! ### Dict lemmas for the duplicate-key claim -/

lemma dictLookup_cons (k k0 v0 : Word) (t : Dict) :
    dictLookup k ((k0, v0) :: t)
      = if k0 = k then some v0 else dictLookup k t := by
  by_cases h : k0 = k
  · rw [dictLookup, List.find?_cons_of_pos _ (by simp [h]), if_pos h]
    rfl
  · rw [dictLookup, List.find?_cons_of_neg _ (by simp [h]), if_neg h]
    rfl

lemma dictLookup_insert_self (k v : Word) (d : Dict) :
    dictLookup k (dictInsert k v d) = some v := by
  induction d with
  | nil =>
    rw [show dictInsert k v [] = [(k, v)] from rfl, dictLookup_cons, if_pos rfl]
  | cons kv t ih =>
    rcases kv with ⟨k0, v0⟩
    simp only [dictInsert]
    by_cases h : k0 = k
    · rw [if_pos h, dictLookup_cons, if_pos h]
    · rw [if_neg h, dictLookup_cons, if_neg h]
      exact ih

lemma dictLookup_insert_ne (k k' v : Word) (d : Dict) (h : k' ≠ k) :
    dictLookup k (dictInsert k' v d) = dictLookup k d := by
  induction d with
  | nil =>
    rw [show dictInsert k' v [] = [(k', v)] from rfl, dictLookup_cons,
      if_neg h]
  | cons kv t ih =>
    rcases kv with ⟨k0, v0⟩
    simp only [dictInsert]
    by_cases h0 : k0 = k'
    · have hk : ¬ k0 = k := by rw [h0]; exact h
      rw [if_pos h0, dictLookup_cons, dictLookup_cons, if_neg hk, if_neg hk]
    · rw [if_neg h0, dictLookup_cons, dictLookup_cons]
      by_cases hk : k0 = k
      · rw [if_pos hk, if_pos hk]
      · rw [if_neg hk, if_neg hk]
        exact ih

lemma parse_attrs_from_append (l1 l2 : List Word) (acc : Dict) :
    parse_attrs_from acc (l1 ++ l2)
      = match parse_attrs_from acc l1 with
        | .ok d => parse_attrs_from d l2
        | .error e => .error e := by
  induction l1 generalizing acc with
  | nil => simp [parse_attrs_from]
  | cons w t ih =>
    rcases hw : parse_word w with _ | ⟨k, v⟩
    · simp [parse_attrs_from, hw]
    · simp [parse_attrs_from, hw, ih]

lemma parse_attrs_from_lookup_of_no_key (k : Word) (l2 : List Word) :
    ∀ (d attrs : Dict),
    (∀ w' ∈ l2, ∀ v', parse_word w' ≠ some (k, v')) →
    parse_attrs_from d l2 = .ok attrs →
    dictLookup k attrs = dictLookup k d := by
  induction l2 with
  | nil =>
    intro d attrs _ h
    simp only [parse_attrs_from, Except.ok.injEq] at h
    rw [h]
  | cons w t ih =>
    intro d attrs hno h
    rcases hw : parse_word w with _ | ⟨k', v'⟩
    · simp [parse_attrs_from, hw] at h
    · simp only [parse_attrs_from, hw] at h
      have hk : k' ≠ k := by
        intro e
        exact hno w (List.mem_cons_self w t) v' (by rw [hw, e])
      rw [ih _ _ (fun w' h' => hno w' (List.mem_cons_of_mem _ h')) h,
        dictLookup_insert_ne _ _ _ _ hk]

/-- C10.  Duplicate attribute keys within one reply sentence: the dict
assignment `attrs[key] = value` in `talk`'s parsing loop overwrites, so
when `w` is the last attribute word of the sentence whose key is `k`
(no word after it parses to key `k`), the accumulated mapping holds `w`'s
value at `k`; the values of earlier words with key `k` are silently
gone. -/
theorem attrs_last_write_wins (l1 l2 : List Word) (w : Word)
    (k v : Word) (attrs : Dict)
    (hw : parse_word w = some (k, v))
    (h2 : ∀ w' ∈ l2, ∀ v', parse_word w' ≠ some (k, v'))
    (hok : parse_attrs (l1 ++ w :: l2) = .ok attrs) :
    dictLookup k attrs = some v := by
  unfold parse_attrs at hok
  rw [parse_attrs_from_append] at hok
  rcases h1 : parse_attrs_from [] l1 with e | d
  · rw [h1] at hok
    simp at hok
  · rw [h1] at hok
    simp only [parse_attrs_from, hw] at hok
    rw [parse_attrs_from_lookup_of_no_key k l2 _ _ h2 hok,
      dictLookup_insert_self]

/-- C10 (witness): the sentence words `=x=1`, `=x=2` leave `x ↦ 2`. -/
theorem attrs_last_write_wins_witness :
    dictLookup (bytes "x") [(bytes "x", bytes "2")] = some (bytes "2") :=
  attrs_last_write_wins [bytes "=x=1"] [] (bytes "=x=2") (bytes "x")
    (bytes "2") [(bytes "x", bytes "2")] (by decide) (by simp) (by decide)

/-! ### The talk outcome classification -/

lemma talkGo_classified (written : List Nat) (input : List Sentence) :
    ∀ (acc init : List (Word × Dict)) (d : Dict),
    parse_replies input = .ok (init ++ [(bytes "!done", d)]) →
    (∀ r ∈ acc ++ init, r.1 ≠ bytes "!done") →
    ((talkGo written input acc).result, (talkGo written input acc).closed)
      = (let rs := acc ++ (init ++ [(bytes "!done", d)])
         if rs.headI.1 = bytes "!trap" then
           (.error (.apiError (.dict rs.headI.2)), false)
         else if rs.headI.1 = bytes "!fatal" then
           (.error (.fatalError (.dict rs.headI.2)), true)
         else (.ok (some rs), false)) := by
  induction input with
  | nil =>
    intro acc init d h _
    exfalso
    simp only [parse_replies, Except.ok.injEq] at h
    exact absurd h.symm (by simp)
  | cons s rest ih =>
    intro acc init d h hnd
    rcases s with _ | ⟨reply, lines⟩
    · rw [show talkGo written ([] :: rest) acc = talkGo written rest acc
        from rfl]
      exact ih acc init d (by simpa [parse_replies] using h) hnd
    · have hcons : (parse_sentence (reply :: lines) >>= fun r =>
          parse_replies rest >>= fun rs =>
            (.ok (r :: rs) : Except RosErr (List (Word × Dict))))
          = .ok (init ++ [(bytes "!done", d)]) := by
        simpa [parse_replies] using h
      rcases hps : parse_sentence (reply :: lines) with e | r0
      · rw [hps] at hcons
        exact Except.noConfusion
          (show (Except.error e : Except RosErr (List (Word × Dict)))
              = .ok (init ++ [(bytes "!done", d)]) from hcons)
      · rw [hps] at hcons
        rcases hpr : parse_replies rest with e | tl
        · rw [hpr] at hcons
          exact Except.noConfusion
            (show (Except.error e : Except RosErr (List (Word × Dict)))
                = .ok (init ++ [(bytes "!done", d)]) from hcons)
        · rw [hpr] at hcons
          have hlist : r0 :: tl = init ++ [(bytes "!done", d)] :=
            Except.ok.inj
              (show (Except.ok (r0 :: tl) : Except RosErr (List (Word × Dict)))
                  = .ok (init ++ [(bytes "!done", d)]) from hcons)
          obtain ⟨attrs, hpa, hr0⟩ :
              ∃ attrs, parse_attrs lines = .ok attrs ∧ r0 = (reply, attrs) := by
            rcases hpa : parse_attrs lines with e | a
            · rw [parse_sentence, hpa] at hps
              simp [Except.map] at hps
            · rw [parse_sentence, hpa] at hps
              simp only [Except.map, Except.ok.injEq] at hps
              exact ⟨a, rfl, hps.symm⟩
          subst hr0
          simp only [talkGo, hpa]
          cases init with
          | nil =>
            have h1 : reply = bytes "!done" ∧ attrs = d ∧ tl = [] := by
              have := hlist
              simp only [List.nil_append, List.cons.injEq, Prod.mk.injEq]
                at this
              exact ⟨this.1.1, this.1.2, this.2⟩
            obtain ⟨hreply, hattrs, _⟩ := h1
            subst hreply
            subst hattrs
            rw [if_pos rfl]
            have c1 : ¬ (bytes "!done" = bytes "!trap") := by decide
            have c2 : ¬ (bytes "!done" = bytes "!fatal") := by decide
            cases acc with
            | nil => simp [List.headI, c1, c2]
            | cons f accT =>
              simp only [List.headI, List.cons_append]
              split_ifs <;> simp
          | cons r1 init' =>
            have h1 : (reply, attrs) = r1 ∧ tl = init' ++ [(bytes "!done", d)] := by
              have := hlist
              simp only [List.cons_append, List.cons.injEq] at this
              exact this
            obtain ⟨hr1, htl⟩ := h1
            subst hr1
            have hrne : ¬ reply = bytes "!done" := by
              have hm : (reply, attrs) ∈ acc ++ (reply, attrs) :: init' := by
                simp
              simpa using hnd (reply, attrs) hm
            rw [if_neg hrne]
            have hnd' : ∀ r ∈ (acc ++ [(reply, attrs)]) ++ init',
                r.1 ≠ bytes "!done" := by
              intro r hr
              apply hnd r
              simp only [List.mem_append, List.mem_cons, List.mem_singleton]
                at hr ⊢
              tauto
            have hrec := ih (acc ++ [(reply, attrs)]) init' d
              (by rw [hpr, htl]) hnd'
            rw [hrec]
            simp [List.append_assoc]

/-- C2.  Outcome classification of `talk`: for a non-empty request and a
reply stream that parses (empty sentences skipped) to replies ending in a
single `!done` reply, with no earlier `!done` — if the FIRST accumulated
reply's tag is `!trap`, `talk` raises `RosAPIError` carrying that reply's
attribute dict and does not close the socket; if it is `!fatal`, `talk`
closes the socket and raises `RosAPIFatalError` with its attrs; otherwise
`talk` returns the full accumulated list in arrival order, the `!done`
reply included. -/
theorem talk_outcome_classification (words : List Word)
    (input : List Sentence) (init : List (Word × Dict)) (d : Dict)
    (hwords : words ≠ [])
    (hp : parse_replies input = .ok (init ++ [(bytes "!done", d)]))
    (hnd : ∀ r ∈ init, r.1 ≠ bytes "!done") :
    ((talk words input).result, (talk words input).closed)
      = (let rs := init ++ [(bytes "!done", d)]
         if rs.headI.1 = bytes "!trap" then
           (.error (.apiError (.dict rs.headI.2)), false)
         else if rs.headI.1 = bytes "!fatal" then
           (.error (.fatalError (.dict rs.headI.2)), true)
         else (.ok (some rs), false)) := by
  have h0 : ¬ (write_sentence words).1 = 0 := by
    rw [write_sentence_eq]
    simp only [List.length_eq_zero]
    exact hwords
  rw [talk, if_neg h0]
  have := talkGo_classified (write_sentence words).2 input [] init d hp
    (by simpa using hnd)
  simpa using this

/-- C2 (witness): request `/cmd`, replies `(empty)`, `!re` with `=a=b`,
then `!done`: all three outcomes of the classification collapse to the
"otherwise" branch, returning both replies in order. -/
theorem talk_outcome_classification_witness :
    ((talk [bytes "/cmd"] [[], [bytes "!re", bytes "=a=b"], [bytes "!done"]]).result,
     (talk [bytes "/cmd"] [[], [bytes "!re", bytes "=a=b"], [bytes "!done"]]).closed)
      = (.ok (some [(bytes "!re", [(bytes "a", bytes "b")]),
          (bytes "!done", [])]), false) := by
  have h := talk_outcome_classification [bytes "/cmd"]
    [[], [bytes "!re", bytes "=a=b"], [bytes "!done"]]
    [(bytes "!re", [(bytes "a", bytes "b")])] []
    (by decide) (by decide) (by decide)
  rw [h]
  decide

/-! ### The resource query builder -/

/-- `str.encode('ascii')` on ASCII text (every text the claims feed in
is ASCII; on non-ASCII input Python would raise, which no claim
exercises). -/
def asciiBytes (s : List Char) : Word := s.map Char.toNat

/-- `BaseRouterboardResource._prepare_arguments(is_query, args)`: one
word per argument, in the caller's order.  The name gets a leading dot
when it is `id` or `proplist`, then `_` becomes `-` (a single-character
`str.replace`, i.e. a character-wise map).  A query argument whose value
is absent (`None`, as opposed to `b''`) yields `?<name>`; every other
argument yields `<sigil><name>=` followed by the byte value — where
concatenating an absent value in Python would raise `TypeError` (the
source's own callers never do). -/
def prepare_arguments (is_query : Bool)
    (args : List (List Char × Option Word)) : Except RosErr (List Word) :=
  args.mapM fun kv =>
    let key := if kv.1 = pstr "id" ∨ kv.1 = pstr "proplist"
      then '.' :: kv.1 else kv.1
    let key := key.map fun ch => if ch = '_' then '-' else ch
    if is_query ∧ kv.2 = none then
      .ok (asciiBytes ('?' :: key))
    else
      match kv.2 with
      | some v =>
        .ok (asciiBytes ((if is_query then '?' else '=') :: key ++ ['=']) ++ v)
      | none => .error .typeError

/-- `BaseRouterboardResource._remove_first_char_from_keys`: decode each
byte key as ASCII and strip the leading dot from `.id`/`.proplist`.  The
source builds `dict(elements)`; the pair list keeps that content. -/
def remove_first_char_from_keys (d : Dict) : List (List Char × Word) :=
  d.map fun kv =>
    let key := kv.1.map Char.ofNat
    ((if key = pstr ".id" ∨ key = pstr ".proplist" then key.drop 1 else key),
     kv.2)

/-- Python 3 semantics of `'ret' in attributes` when the dict keys are
byte strings: a `str` never compares equal to a `bytes` object, whatever
the contents, so the test is False for every key.  (Under Python 2,
where `bytes` is `str`, the same expression compares by content.) -/
def pyStrEqBytes (_s : List Char) (_b : Word) : Bool := false

instance : DecidableEq (List Char × Word) := instDecidableEqProd

instance : DecidableEq (List (List Char × Word)) := instDecidableEqList

instance : DecidableEq (List (List (List Char × Word))) := instDecidableEqList

/-- What one `BaseRouterboardResource.call` does: the words sent (the
command word first, then query words, then set words), the `!re` rows
collected, and `self.ret` as left by the `!done` reply. -/
structure CallOut where
  sent : List Word
  output : List (List (List Char × Word))
  ret : Option Word
deriving DecidableEq, Repr

/-- `BaseRouterboardResource.call(command, set_kwargs, query_args)` for a
resource at path `ns`: build `<ns>/<command>` plus query and set words,
`talk`, collect each `!re` reply's attributes (keys decoded, dots
stripped), and set `self.ret` from the `!done` reply — via the
bytes-vs-str membership test `pyStrEqBytes`, and `attributes['ret']`
when it claims to find the key. -/
def callModel (ns command : List Char) (set_kwargs : List (List Char × Word))
    (query_args : List (List Char × Option Word)) (input : List Sentence) :
    Except RosErr CallOut := do
  let query_arguments ← prepare_arguments true query_args
  let set_arguments ← prepare_arguments false
    (set_kwargs.map fun kv => (kv.1, some kv.2))
  let query := [asciiBytes (ns ++ pstr "/" ++ command)]
    ++ query_arguments ++ set_arguments
  match (talk query input).result with
  | .error e => .error e
  | .ok none =>
    -- unreachable: `query` always holds the command word, so `talk`
    -- never bails out with `None` here
    .error .typeError
  | .ok (some response) =>
    .ok (response.foldl
      (fun (co : CallOut) r =>
        let co := if r.1 = bytes "!re" then
          { co with output := co.output ++ [remove_first_char_from_keys r.2] }
          else co
        if r.1 = bytes "!done" then
          { co with
            ret := ((r.2.find? fun kv => pyStrEqBytes (pstr "ret") kv.1).map
              (·.2)) }
        else co)
      ⟨query, [], none⟩)

/-- `int(x)` as `count` uses it: `int(None)` raises `TypeError`; a byte
string of decimal digits parses to the integer (a non-numeric byte string
would raise `ValueError`; signs and whitespace are not needed by any
claim). -/
def pyInt : Option Word → Except RosErr Int
  | none => .error .typeError
  | some bs =>
    if bs ≠ [] ∧ bs.all (fun b => decide (48 ≤ b) && decide (b ≤ 57)) then
      .ok (bs.foldl (fun acc b => acc * 10 + (Int.ofNat b - 48)) 0)
    else .error .valueError

/-- `BaseRouterboardResource.count(*args)`: `print` with the `count-only`
set-flag (value `b''`), then `int(self.ret)`. -/
def countModel (ns : List Char) (query_args : List (List Char × Option Word))
    (input : List Sentence) : Except RosErr Int := do
  let c ← callModel ns (pstr "print") [(pstr "count-only", [])] query_args
    input
  pyInt c.ret

/-- `RouterboardResource._encode_items(items)`: `v.encode('ascii') if v
else b''` — BOTH `None` and the empty string are falsy, so both collapse
to `b''`; the absent-value marker does not survive this layer. -/
def encode_items (items : List (List Char × Option (List Char))) :
    List (List Char × Word) :=
  items.map fun kv =>
    (kv.1, match kv.2 with
      | some s => if s.isEmpty then [] else asciiBytes s
      | none => [])

/-- The query words `RouterboardResource.call` (the text-oriented layer)
hands to the base builder: `_encode_items` first — after which every
value is a concrete byte string, never `None` — then
`_prepare_arguments(True, ·)`. -/
def routerboard_query_words
    (query_args : List (List Char × Option (List Char))) :
    Except RosErr (List Word) :=
  prepare_arguments true
    ((encode_items query_args).map fun kv => (kv.1, some kv.2))

/-- C3.  Argument encoding.  For the byte-level builder everything the
claim says holds, in the caller's order: underscores become hyphens,
`id`/`proplist` get a leading dot, a set-field gives `=<name>=<value>`,
a valueless (None) query predicate gives `?<name>` with no `=`, and an
empty-string-valued one gives `?<name>=`.  But the claim fails for the
text-oriented builder: `_encode_items` turns `None` into `b''`, so the
spec's own ordering example `get(("type","ether"), ("type","vlan"),
("#|", None))` emits `b"?#|="` — not `b"?#|"` — as its last word. -/
theorem query_valueless_encoding :
    prepare_arguments true
        [(pstr "type", some (bytes "ether")),
         (pstr "type", some (bytes "vlan")), (pstr "#|", none)]
      = .ok [bytes "?type=ether", bytes "?type=vlan", bytes "?#|"]
    ∧ prepare_arguments false [(pstr "proplist", some (bytes "name,type"))]
      = .ok [bytes "=.proplist=name,type"]
    ∧ prepare_arguments true [(pstr "id", none)] = .ok [bytes "?.id"]
    ∧ prepare_arguments false [(pstr "max_l2mtu", some (bytes "1500"))]
      = .ok [bytes "=max-l2mtu=1500"]
    ∧ prepare_arguments true [(pstr "comment", some (bytes ""))]
      = .ok [bytes "?comment="]
    ∧ routerboard_query_words
        [(pstr "type", some (pstr "ether")), (pstr "type", some (pstr "vlan")),
         (pstr "#|", none)]
      = .ok [bytes "?type=ether", bytes "?type=vlan", bytes "?#|="] := by
  decide

/-- C4.  `count` does issue `print` with the `count-only` flag word, but
on Python 3 it then always fails with `TypeError`, even when the `!done`
reply carries a numeric `ret`: the membership test `'ret' in attributes`
compares the text key against byte-string keys and never succeeds, so
`self.ret` stays `None` and `int(None)` raises `TypeError` instead of
returning the claimed integer (42 here).  Under Python 2 the same line
finds the key and `count` returns 42. -/
theorem count_ret_lookup :
    callModel (pstr "/interface") (pstr "print") [(pstr "count-only", [])]
        [] [[bytes "!done", bytes "=ret=42"]]
      = .ok ⟨[bytes "/interface/print", bytes "=count-only="], [], none⟩
    ∧ countModel (pstr "/interface") [] [[bytes "!done", bytes "=ret=42"]]
      = .error .typeError := by
  decide

/-! ### The reconnect retry policy -/

/-- The outcome of one `connect(); login()` attempt as the inner `try` of
`RouterboardAPI.reconnect` observes it: success, a `socket.error`
(connection refused / timeout / reset during either call), or any other
exception — e.g. `RosAPIError` (`!trap`) or `RosAPIFatalError` raised by
the login handshake, or a `RosAPIConnectionError` wrapped by the talk
layer. -/
inductive AttemptOutcome where
  | ok
  | sockErr (msg : List Char)
  | err (e : RosErr)
deriving DecidableEq, Repr

/-- Is the outcome a `socket.error`?  Only these are caught by the inner
`except socket.error: retry()`. -/
def isSockErr : AttemptOutcome → Bool
  | .sockErr _ => true
  | _ => false

/-- `reconnect` calls `retryloop(10, delay=0.1, timeout=30)`. -/
def reconnectAttempts : Nat := 10

/-- `delay=0.1` seconds between attempts (real time — recorded only). -/
def reconnectDelaySeconds : ℚ := 1 / 10

/-- `timeout=30` seconds overall ceiling (real time — recorded only). -/
def reconnectTimeoutSeconds : Nat := 30

/-- Modelled from the spec: `retryloop` and `RetryError` live in the
repository's `rosapi/retryloop.py`, which is not under `src/`.  Per §4.5
the generator `retryloop(attempts, delay, timeout)` yields once per
attempt, sleeps `delay` between attempts, and raises `RetryError` once
`retry()` has been called with the attempt budget (or the real-time
`timeout` ceiling, not modelled) exhausted.  `reconnectLoop f budget
made` is `reconnect`'s `for retry in retryloop(...)` body starting at
attempt index `made` with `budget` attempts left: `socket.error` calls
`retry()`, success falls through and ends the loop, any other exception
escapes the `for` at once; the result is paired with the number of
attempts performed.  `reconnect`'s outer `except (socket.error,
RetryError)` turns budget exhaustion into
`RosAPIConnectionError(str(e))`. -/
def reconnectLoop (f : Nat → AttemptOutcome) :
    Nat → Nat → Except RosErr Unit × Nat
  | 0, made => (.error (.connectionError (.str (pstr "RetryError"))), made)
  | budget + 1, made =>
    match f made with
    | .ok => (.ok (), made + 1)
    | .sockErr _ => reconnectLoop f budget (made + 1)
    | .err e => (.error e, made + 1)

/-- `RouterboardAPI.reconnect()` given the per-attempt outcomes `f`. -/
def reconnectModel (f : Nat → AttemptOutcome) : Except RosErr Unit × Nat :=
  reconnectLoop f reconnectAttempts 0

lemma reconnectLoop_skip (f : Nat → AttemptOutcome) :
    ∀ (k n made : Nat), k ≤ n →
    (∀ i < k, isSockErr (f (made + i)) = true) →
    reconnectLoop f n made = reconnectLoop f (n - k) (made + k) := by
  intro k
  induction k with
  | zero => intro n made _ _; simp
  | succ k ih =>
    intro n made hkn hs
    cases n with
    | zero => omega
    | succ n =>
      have h0 := hs 0 (by omega)
      rcases hf : f made with _ | m | e
      · rw [Nat.add_zero, hf] at h0
        simp [isSockErr] at h0
      · have hstep : reconnectLoop f (n + 1) made
            = reconnectLoop f n (made + 1) := by
          simp only [reconnectLoop, hf]
        rw [hstep]
        have e1 : n + 1 - (k + 1) = n - k := by omega
        have e2 : made + (k + 1) = made + 1 + k := by omega
        rw [e1, e2]
        refine ih n (made + 1) (by omega) ?_
        intro i hi
        have := hs (i + 1) (by omega)
        have e3 : made + (i + 1) = made + 1 + i := by omega
        rwa [e3] at this
      · rw [Nat.add_zero, hf] at h0
        simp [isSockErr] at h0

/-- C6.  The reconnect retry policy, for an arbitrary per-attempt outcome
function `f` whose first `k` attempts all fail with `socket.error`
(transport-level): (i) if attempt `k` (0-based, `k < 10`) succeeds,
`reconnect` returns a usable connection after exactly `k + 1` attempts;
(ii) if attempt `k` raises a non-socket error — e.g. the `RosAPIError`
of a `!trap` or a `RosAPIFatalError` during the login handshake — it is
NOT retried: `reconnect` propagates exactly that error immediately,
after `k + 1` attempts; (iii) if all 10 budgeted attempts fail with
`socket.error`, `reconnect` stops at 10 attempts and raises
`RosAPIConnectionError` (wrapping `RetryError`); and the configuration
handed to `retryloop` is 10 attempts, a fixed 0.1-second inter-attempt
delay and a 30-second overall timeout ceiling. -/
theorem reconnect_retry_policy (f : Nat → AttemptOutcome) (k : Nat)
    (hk : ∀ i < k, isSockErr (f i) = true) :
    (k < 10 → f k = .ok → reconnectModel f = (.ok (), k + 1))
    ∧ (k < 10 → ∀ e, f k = .err e → reconnectModel f = (.error e, k + 1))
    ∧ (k = 10 →
        reconnectModel f
          = (.error (.connectionError (.str (pstr "RetryError"))), 10))
    ∧ reconnectAttempts = 10 ∧ reconnectDelaySeconds = 1 / 10
    ∧ reconnectTimeoutSeconds = 30 := by
  refine ⟨?_, ?_, ?_, rfl, rfl, rfl⟩
  · intro hk10 hfk
    unfold reconnectModel reconnectAttempts
    rw [reconnectLoop_skip f k 10 0 (by omega) (by simpa using hk)]
    have h1 : 10 - k = (9 - k) + 1 := by omega
    rw [h1]
    simp [reconnectLoop, hfk]
  · intro hk10 e hfk
    unfold reconnectModel reconnectAttempts
    rw [reconnectLoop_skip f k 10 0 (by omega) (by simpa using hk)]
    have h1 : 10 - k = (9 - k) + 1 := by omega
    rw [h1]
    simp [reconnectLoop, hfk]
  · intro hk10
    subst hk10
    unfold reconnectModel reconnectAttempts
    rw [reconnectLoop_skip f 10 10 0 (by omega) (by simpa using hk)]
    simp [reconnectLoop]

/-- C6 (witness): a connector that fails transport-connect twice and then
succeeds makes exactly 3 connect attempts and yields a usable
connection — the spec's own test scenario. -/
theorem reconnect_retry_policy_witness :
    reconnectModel
        (fun i => if i < 2 then .sockErr (pstr "refused") else .ok)
      = (.ok (), 3) :=
  (reconnect_retry_policy
    (fun i => if i < 2 then .sockErr (pstr "refused") else .ok) 2
    (by decide)).1 (by decide) (by decide)

end RosApi
